import Mathlib

/-!
Shallow embedding of the WiFi-SilentDisco runtime controller
(`scripts/start_stream_server.py` and `SilentDisco-Dynamic/manage.py`)
together with theorems settling the specification claims.

Operating-system effects (socket bind probes, the filesystem, subprocess
output) are modelled as explicit parameters: a bind probe becomes a
function `Nat → Bool` saying which ports are bindable, a file becomes an
`Option (List String)` (absent, or its list of lines), and the parsed
output of the orchestration tool becomes an `Except` value.  Python
exceptions are modelled with `Except String`.
-/

namespace SilentDisco

namespace StartServer

/-- The in-memory representation of `EnvironmentManager.values`: a Python
dict of string keys to string values, i.e. an ordered association list
with unique keys (insertion order preserved, assignment to an existing
key updates in place). -/
abbrev EnvRecord := List (String × String)

/-- Python dict lookup `values.get(key)`. -/
def lookupEnv : EnvRecord → String → Option String
  | [], _ => none
  | (k, v) :: rest, key => if k = key then some v else lookupEnv rest key

/-- Python dict assignment `values[key] = value`: updates the value in
place when the key exists (position preserved), appends otherwise. -/
def setEnv : EnvRecord → String → String → EnvRecord
  | [], key, value => [(key, value)]
  | (k, v) :: rest, key, value =>
    if k = key then (k, value) :: rest else (k, v) :: setEnv rest key value

/-- Python `line.split(sep, 1)` restricted to the case used by `load`:
returns the text before and after the first occurrence of `sep`, or
`none` when `sep` does not occur (in which case the 2-tuple unpacking in
the source would fail / the `"=" not in line` guard fires). -/
def splitCharsOnFirst (sep : Char) : List Char → Option (List Char × List Char)
  | [] => none
  | c :: rest =>
    if c = sep then some ([], rest)
    else (splitCharsOnFirst sep rest).map (fun p => (c :: p.1, p.2))

/-- Python `line.strip()` on the character list of a line (leading and
trailing whitespace removed). -/
def trimChars (cs : List Char) : List Char :=
  ((cs.dropWhile Char.isWhitespace).reverse.dropWhile Char.isWhitespace).reverse

/-- One iteration of the loop body of `EnvironmentManager.load`
(start_stream_server.py lines 104-109): strip the line, skip it when it
is empty, a `#` comment, or has no `=`, otherwise split on the first `=`
into key and value. -/
def envParseLine (raw : String) : Option (String × String) :=
  match trimChars raw.data with
  | [] => none
  | c :: rest =>
    if c = '#' then none
    else
      match splitCharsOnFirst '=' (c :: rest) with
      | none => none
      | some (k, v) => some (String.mk k, String.mk v)

/-- The loop of `EnvironmentManager.load`, folding parsed lines into the
current `values` dict (the source updates `self.values` in place without
clearing it first). -/
def envLoadInto (acc : EnvRecord) : List String → EnvRecord
  | [] => acc
  | line :: rest =>
    match envParseLine line with
    | none => envLoadInto acc rest
    | some (k, v) => envLoadInto (setEnv acc k v) rest

/-- `EnvironmentManager.load` starting from an empty `values` dict, as in
`EnvironmentManager.__init__`. -/
def envLoadLines (lines : List String) : EnvRecord :=
  envLoadInto [] lines

/-- `EnvironmentManager.load` (start_stream_server.py lines 100-109)
including its missing-file behaviour: when `self.path` does not exist
the source raises `SystemExit("Missing .env file. ...")`; otherwise it
parses the file's lines. -/
def envLoad (file : Option (List String)) : Except String EnvRecord :=
  match file with
  | none => Except.error "Missing .env file. Run scripts/setup_ome_server.py first."
  | some lines => Except.ok (envLoadLines lines)

/-- `EnvironmentManager.save` (start_stream_server.py lines 111-114):
writes one `key=value` line per entry, in dict order, overwriting the
file. -/
def envSave (env : EnvRecord) : List String :=
  env.map (fun kv => kv.1 ++ "=" ++ kv.2)

/-- The key that a line contributes on load, when it contributes one. -/
def entryKey (l : String) : Option String :=
  (envParseLine l).map Prod.fst

/-- Python `int(value)` for the nonnegative decimal literals that the
port variables hold: all characters must be digits and there must be at
least one (a `ValueError` is `none`; sign and surrounding whitespace,
which the source never stores in port values, are not modelled). -/
def digitsToNat (acc : Nat) : List Char → Option Nat
  | [] => some acc
  | c :: rest =>
    if c.isDigit then digitsToNat (acc * 10 + (c.toNat - ('0').toNat)) rest
    else none

/-- See `digitsToNat`. -/
def parseNat (s : String) : Option Nat :=
  match s.data with
  | [] => none
  | c :: rest => digitsToNat 0 (c :: rest)

/-- The `PORT_VARIABLES` table (start_stream_server.py lines 73-82):
monitored variable name paired with its protocol tag. -/
def PORT_VARIABLES : List (String × String) :=
  [("OME_ORIGIN_PORT", "tcp"),
   ("OME_RTMP_PORT", "tcp"),
   ("OME_SRT_PORT", "udp"),
   ("OME_LLHLS_PORT", "tcp"),
   ("OME_LLHLS_TLS_PORT", "tcp"),
   ("OME_TURN_PORT", "tcp"),
   ("OME_WEBRTC_CANDIDATE_PORT_RANGE", "udp-range"),
   ("GUEST_HTTP_PORT", "tcp")]

/-- The protocol dispatch
`probe_udp_port(candidate) if protocol == "udp" else probe_tcp_port(candidate)`
used in `find_available_port` and `resolve_ports`.  The operating-system
bind probes `probe_tcp_port` / `probe_udp_port` (lines 251-267) are the
OS boundary and are modelled by the two oracles `tcpAvail` / `udpAvail`:
which ports a bind would currently succeed on. -/
def probePort (tcpAvail udpAvail : Nat → Bool) (protocol : String) (port : Nat) : Bool :=
  if protocol = "udp" then udpAvail port else tcpAvail port

/-- The scan loop of `find_available_port`: try `start`, `start+1`, ...
while fuel remains, returning the first candidate the probe accepts. -/
def findFrom (avail : Nat → Bool) (start : Nat) : Nat → Option Nat
  | 0 => none
  | fuel + 1 => if avail start then some start else findFrom avail (start + 1) fuel

/-- `find_available_port` (start_stream_server.py lines 270-276): probes
`start_port + offset` for `offset in range(0, 50)` and returns the first
available candidate; `none` models the `RuntimeError` raised when all 50
candidates are taken. -/
def find_available_port (tcpAvail udpAvail : Nat → Bool)
    (start_port : Nat) (protocol : String) : Option Nat :=
  findFrom (fun c => probePort tcpAvail udpAvail protocol c) start_port 50

/-- The body of the `for key, proto in PORT_VARIABLES.items()` loop of
`resolve_ports` (start_stream_server.py lines 281-303), acting on the
pair (env values dict, updated dict).  Python exceptions escaping the
loop body (`ValueError` from `int(...)` or tuple unpacking, and the
`RuntimeError` of `find_available_port`) are `Except.error`. -/
def resolveStep (tcpAvail udpAvail : Nat → Bool)
    (st : EnvRecord × EnvRecord) (kv : String × String) :
    Except String (EnvRecord × EnvRecord) :=
  let env := st.1
  let updated := st.2
  let key := kv.1
  let proto := kv.2
  match lookupEnv env key with
  | none => Except.ok (env, updated)
  | some value =>
    if proto = "udp-range" then
      match splitCharsOnFirst '-' value.data with
      | none => Except.error "ValueError: not enough values to unpack"
      | some (s, e) =>
        match parseNat (String.mk s), parseNat (String.mk e) with
        | some start_port, some end_port =>
          match find_available_port tcpAvail udpAvail start_port "udp" with
          | none =>
            Except.error ("Unable to find available UDP port near " ++ toString start_port)
          | some new_start =>
            if new_start = start_port then Except.ok (env, updated)
            else
              let diff := new_start - start_port
              let new_end := end_port + diff
              let newVal := toString new_start ++ "-" ++ toString new_end
              Except.ok (setEnv env key newVal, setEnv updated key newVal)
        | _, _ => Except.error "ValueError: invalid literal for int"
    else
      match parseNat value with
      | none => Except.error "ValueError: invalid literal for int"
      | some port =>
        if probePort tcpAvail udpAvail proto port then Except.ok (env, updated)
        else
          match find_available_port tcpAvail udpAvail port proto with
          | none =>
            Except.error ("Unable to find available port near " ++ toString port)
          | some new_port =>
            let newVal := toString new_port
            Except.ok (setEnv env key newVal, setEnv updated key newVal)

/-- The loop of `resolve_ports` over a list of monitored variables. -/
def resolveGo (tcpAvail udpAvail : Nat → Bool) :
    List (String × String) → EnvRecord × EnvRecord →
    Except String (EnvRecord × EnvRecord)
  | [], st => Except.ok st
  | kv :: rest, st =>
    match resolveStep tcpAvail udpAvail st kv with
    | Except.error e => Except.error e
    | Except.ok st' => resolveGo tcpAvail udpAvail rest st'

/-- `resolve_ports` (start_stream_server.py lines 279-306): walks
`PORT_VARIABLES`, reassigning busy ports, and returns the final env
values dict together with the `updated` dict of changed entries (the
source additionally calls `env.save()` when `updated` is nonempty,
which persists exactly the returned env record). -/
def resolve_ports (tcpAvail udpAvail : Nat → Bool) (env : EnvRecord) :
    Except String (EnvRecord × EnvRecord) :=
  resolveGo tcpAvail udpAvail PORT_VARIABLES (env, [])

/-- The availability hypothesis of claim C5 for one monitored value: the
value parses and its bind probe succeeds (for a `udp-range` value the
probed port is the start of the range, as in the source). -/
def valueAvailable (tcpAvail udpAvail : Nat → Bool) (proto value : String) : Bool :=
  if proto = "udp-range" then
    match splitCharsOnFirst '-' value.data with
    | none => false
    | some (s, e) =>
      match parseNat (String.mk s), parseNat (String.mk e) with
      | some start_port, some _ => udpAvail start_port
      | _, _ => false
  else
    match parseNat value with
    | none => false
    | some port => probePort tcpAvail udpAvail proto port

/-- A monitored value on which `resolve_ports` cannot raise: it parses,
and either its probe succeeds or the 50-candidate scan finds a
replacement. -/
def valueResolvable (tcpAvail udpAvail : Nat → Bool) (proto value : String) : Bool :=
  if proto = "udp-range" then
    match splitCharsOnFirst '-' value.data with
    | none => false
    | some (s, e) =>
      match parseNat (String.mk s), parseNat (String.mk e) with
      | some start_port, some _ =>
        (find_available_port tcpAvail udpAvail start_port "udp").isSome
      | _, _ => false
  else
    match parseNat value with
    | none => false
    | some port =>
      probePort tcpAvail udpAvail proto port ||
        (find_available_port tcpAvail udpAvail port proto).isSome

/-- The scan that claim C1 describes, following the spec's words: from
the fixed low bound 1024 up to the upper bound 65535, skipping the
already-rejected current value, return the first bindable candidate. -/
def claimScanFrom (avail : Nat → Bool) (skip : Nat) : Nat → Nat → Option Nat
  | _, 0 => none
  | candidate, fuel + 1 =>
    if candidate ≠ skip && avail candidate then some candidate
    else claimScanFrom avail skip (candidate + 1) fuel

/-- See `claimScanFrom`: the C1-claimed resolver over 1024..65535. -/
def claimScanC1 (avail : Nat → Bool) (current : Nat) : Option Nat :=
  claimScanFrom avail current 1024 (65535 - 1024 + 1)

/-- A concrete bind-probe oracle for counterexamples and witnesses:
every port except 5000 is bindable. -/
def availExcept5000 : Nat → Bool :=
  fun q => decide (q ≠ 5000)

/-- A concrete bind-probe oracle under which no port is bindable. -/
def availNone : Nat → Bool :=
  fun _ => false

/-- A concrete bind-probe oracle: every port except 10000 is bindable. -/
def availExcept10000 : Nat → Bool :=
  fun q => decide (q ≠ 10000)

/-- A concrete bind-probe oracle under which every port is bindable. -/
def availAll : Nat → Bool :=
  fun _ => true

/-- A concrete `.env` record holding every monitored port variable. -/
def envAllPorts : EnvRecord :=
  [("OME_ORIGIN_PORT", "9000"),
   ("OME_RTMP_PORT", "1935"),
   ("OME_SRT_PORT", "9999"),
   ("OME_LLHLS_PORT", "3333"),
   ("OME_LLHLS_TLS_PORT", "3334"),
   ("OME_TURN_PORT", "3478"),
   ("OME_WEBRTC_CANDIDATE_PORT_RANGE", "10000-10004"),
   ("GUEST_HTTP_PORT", "8088")]

/-- `envAllPorts` without the `GUEST_HTTP_PORT` entry. -/
def envNoGuest : EnvRecord :=
  [("OME_ORIGIN_PORT", "9000"),
   ("OME_RTMP_PORT", "1935"),
   ("OME_SRT_PORT", "9999"),
   ("OME_LLHLS_PORT", "3333"),
   ("OME_LLHLS_TLS_PORT", "3334"),
   ("OME_TURN_PORT", "3478"),
   ("OME_WEBRTC_CANDIDATE_PORT_RANGE", "10000-10004")]

/-- One element of a service's `Publishers` list in the JSON that
`docker compose ps --format json` produces: the fields
`get_compose_status` reads, each optional because `item.get(...)` may
find the key absent. -/
structure Publisher where
  targetPort : Option Nat
  publishedPort : Option Nat
  protocol : Option String

/-- One service entry of the parsed JSON: the fields `get_compose_status`
reads (`service.get("State")` and `service.get("Publishers", [])`). -/
structure Service where
  state : Option String
  publishers : List Publisher

/-- The `ComposeStatus` dataclass (start_stream_server.py lines 87-91). -/
structure ComposeStatus where
  running : Bool
  containers : Nat
  published_ports : EnvRecord

/-- The failure modes that the `except` clause of `get_compose_status`
absorbs: a nonzero tool exit (`CalledProcessError`), unparsable output
(`JSONDecodeError`), and the daemon-unreachable / tool-missing
`RuntimeError` raised by `ensure_docker_daemon` and
`run_compose_command`. -/
inductive ComposeFailure
  | toolError
  | parseError
  | daemonUnreachable

/-- The inner loop of `get_compose_status` (lines 241-247): record a
publisher in the port dict as `ports[f"{target}/{protocol}"] =
str(published)` when both `TargetPort` and `PublishedPort` are truthy
(Python truthiness: present and nonzero). -/
def addPublisher (ports : EnvRecord) (item : Publisher) : EnvRecord :=
  match item.targetPort, item.publishedPort with
  | some target, some published =>
    if target ≠ 0 ∧ published ≠ 0 then
      setEnv ports (toString target ++ "/" ++ item.protocol.getD "tcp") (toString published)
    else ports
  | _, _ => ports

/-- `get_compose_status` (start_stream_server.py lines 232-248), taking
as input the combined outcome of running the tool and JSON-parsing its
stdout: on any absorbed failure the result is
`ComposeStatus(False, 0, {})`; otherwise `running` is whether any
service's `State` equals "running", `containers` is the number of
services, and the port dict is accumulated over every service's
publishers. -/
def get_compose_status (result : Except ComposeFailure (List Service)) : ComposeStatus :=
  match result with
  | Except.error _ => ⟨false, 0, []⟩
  | Except.ok services =>
    let running := services.any (fun s => s.state == some "running")
    let ports := services.foldl (fun acc s => s.publishers.foldl addPublisher acc) []
    ⟨running, services.length, ports⟩

/-- A sample parsed unit list: one running service publishing a port,
and one exited service. -/
def sampleServices : List Service :=
  [⟨some "running", [⟨some 8080, some 9000, some "tcp"⟩]⟩,
   ⟨some "exited", []⟩]

/-- The shape of an entry generated by `addPublisher`. -/
def publisherEntry (item : Publisher) (x : String × String) : Prop :=
  ∃ t p, item.targetPort = some t ∧ item.publishedPort = some p ∧
    t ≠ 0 ∧ p ≠ 0 ∧
    x = (toString t ++ "/" ++ item.protocol.getD "tcp", toString p)

/-- The possible outcomes of the `urlopen` call in
`check_stream_availability`: a returned response with its status code,
an `HTTPError` with its code, a `URLError` (connection failure), or any
other exception. -/
inductive ProbeOutcome
  | success (status : Nat)
  | httpError (code : Nat)
  | urlError
  | otherError

/-- The `try`/`except` classification of `check_stream_availability`
(start_stream_server.py lines 315-327). -/
def classifyProbe (outcome : ProbeOutcome) : String :=
  match outcome with
  | ProbeOutcome.success status =>
    if status < 400 then "Live stream detected" else "Unknown stream state"
  | ProbeOutcome.httpError code =>
    if code = 404 then "Waiting for OBS to publish"
    else "HTTP " ++ toString code ++ " from LL-HLS"
  | ProbeOutcome.urlError => "Stream endpoint unreachable"
  | ProbeOutcome.otherError => "Stream probe failed"

/-- `check_stream_availability` (start_stream_server.py lines 309-327):
`env["OME_HOST_IP"]` raises `KeyError` when the key is absent (modelled
as the error case); with the URL built, the probe outcome is classified
by `classifyProbe` and the function returns the message — it never
propagates the probe's exception. -/
def check_stream_availability (env : EnvRecord) (outcome : ProbeOutcome) :
    Except String String :=
  match lookupEnv env "OME_HOST_IP" with
  | none => Except.error "KeyError: OME_HOST_IP"
  | some _host => Except.ok (classifyProbe outcome)

/-- The state of `GuestTrackerHTTPServer` (start_stream_server.py lines
126-134): the set of distinct client addresses, kept as the list of
addresses in first-arrival order (Python's `set` has no order; only
membership, insertion and size are used by the source), plus the
`last_ping` timestamp. -/
structure GuestServer where
  unique_clients : List String
  last_ping : Nat

/-- A fresh `GuestTrackerHTTPServer` (`unique_clients = set()`,
`last_ping = 0.0`). -/
def initGuestServer : GuestServer :=
  ⟨[], 0⟩

/-- `GuestTrackerHTTPServer.register_client` (lines 132-134): add the
address to the set and update `last_ping` to the current time. -/
def register_client (srv : GuestServer) (ip : String) (now : Nat) : GuestServer :=
  ⟨if ip ∈ srv.unique_clients then srv.unique_clients else srv.unique_clients ++ [ip],
   now⟩

/-- List version of `path.startswith(s)`. -/
def startsWithChars : List Char → List Char → Bool
  | [], _ => true
  | _ :: _, [] => false
  | p :: ps, c :: cs => p = c && startsWithChars ps cs

/-- One `GET` request as seen by `GuestRequestHandler.do_GET`: its path,
the client address, and the current time. -/
structure Request where
  path : String
  ip : String
  now : Nat

/-- The state effect of `GuestRequestHandler.do_GET` (lines 145-158): a
path starting with `/api/time` registers the client address; any other
path is served as a static file and leaves the tracker state unchanged. -/
def handleGet (srv : GuestServer) (r : Request) : GuestServer :=
  if startsWithChars "/api/time".data r.path.data then
    register_client srv r.ip r.now
  else srv

/-- A sequence of requests handled in order by the guest server. -/
def processRequests (srv : GuestServer) (reqs : List Request) : GuestServer :=
  reqs.foldl handleGet srv

/-- `BackgroundHTTPServer.client_count` (lines 185-189) for a live
server: `len(self._server.unique_clients)`. -/
def client_count (srv : GuestServer) : Nat :=
  srv.unique_clients.length

end StartServer

namespace Manage

/-- The scan loop `for candidate in range(1024, 65535)` of
`manage.py`'s `find_available_port`: skip candidates in the exclusion
set, return the first one the bind probe accepts. -/
def scanFrom (avail : Nat → Bool) (excl : List Nat) : Nat → Nat → Option Nat
  | _, 0 => none
  | candidate, fuel + 1 =>
    if candidate ∈ excl then scanFrom avail excl (candidate + 1) fuel
    else if avail candidate then some candidate
    else scanFrom avail excl (candidate + 1) fuel

/-- `find_available_port` (manage.py lines 214-227).  The TCP bind probe
`port_available` (lines 204-211) is the OS boundary, modelled by the
oracle `avail`.  `exclude_set` is `{preferred}` plus the caller-supplied
exclusions; if the preferred port binds it is returned unchanged,
otherwise candidates `1024..65534` (`range(1024, 65535)`) outside the
exclusion set are scanned and exhaustion raises `ConfigurationError`. -/
def find_available_port (avail : Nat → Bool) (preferred : Nat)
    (exclude : List Nat) : Except String Nat :=
  let exclude_set := preferred :: exclude
  if avail preferred then Except.ok preferred
  else
    match scanFrom avail exclude_set 1024 (65535 - 1024) with
    | some candidate => Except.ok candidate
    | none => Except.error "Unable to find an available network port."

/-- The port-assignment step of `prepare_runtime_configuration`
(manage.py lines 252-255): resolve the RTMP port first, then the HTTP
port with the freshly assigned RTMP port excluded. -/
def prepare_ports (avail : Nat → Bool) (rtmp_port http_port : Nat) :
    Except String (Nat × Nat) :=
  match find_available_port avail rtmp_port [] with
  | Except.error e => Except.error e
  | Except.ok r =>
    match find_available_port avail http_port [r] with
    | Except.error e => Except.error e
    | Except.ok h => Except.ok (r, h)

/-- A concrete bind-probe oracle: exactly the ports from 1024 upward
are bindable. -/
def availFrom1024 : Nat → Bool :=
  fun q => decide (1024 ≤ q)

end Manage

end SilentDisco

namespace SilentDisco

namespace StartServer

/-- C2 counterexample: on an absent file, `EnvironmentManager.load` does
not return an empty record (it raises `SystemExit`). -/
theorem envLoad_absent_not_empty :
    envLoad none ≠ Except.ok ([] : EnvRecord) := by
  intro h
  exact Except.noConfusion h

/-- C2 (amended): for the absent-file case, `EnvironmentManager.load`
terminates the process with a `SystemExit` error directing the user to
run the setup script, rather than returning an empty record. -/
theorem envLoad_absent_raises :
    envLoad none =
      Except.error "Missing .env file. Run scripts/setup_ome_server.py first." := rfl

theorem findFrom_some {avail : Nat → Bool} {c : Nat} :
    ∀ {fuel start : Nat}, findFrom avail start fuel = some c →
      start ≤ c ∧ c < start + fuel ∧ avail c = true ∧
        ∀ q, start ≤ q → q < c → avail q = false := by
  intro fuel
  induction fuel with
  | zero => intro start h; exact absurd h (by simp [findFrom])
  | succ n ih =>
    intro start h
    rw [findFrom] at h
    by_cases ha : avail start
    · rw [if_pos ha] at h
      obtain rfl : start = c := Option.some.inj h
      exact ⟨Nat.le_refl _, by omega, ha, fun q hq hq' => absurd (Nat.lt_of_le_of_lt hq hq') (Nat.lt_irrefl _)⟩
    · rw [if_neg ha] at h
      obtain ⟨h1, h2, h3, h4⟩ := ih h
      refine ⟨by omega, by omega, h3, fun q hq hq' => ?_⟩
      rcases Nat.eq_or_lt_of_le hq with rfl | hlt
      · exact Bool.eq_false_iff.mpr ha
      · exact h4 q hlt hq'

theorem findFrom_none {avail : Nat → Bool} :
    ∀ {fuel start : Nat}, findFrom avail start fuel = none ↔
      ∀ q, start ≤ q → q < start + fuel → avail q = false := by
  intro fuel
  induction fuel with
  | zero => intro start; simp [findFrom]; omega
  | succ n ih =>
    intro start
    rw [findFrom]
    by_cases ha : avail start
    · simp only [if_pos ha]
      constructor
      · intro h; exact absurd h (by simp)
      · intro h
        have := h start (Nat.le_refl _) (by omega)
        rw [ha] at this; exact absurd this (by simp)
    · simp only [if_neg ha]
      rw [ih]
      constructor
      · intro h q hq hq'
        rcases Nat.eq_or_lt_of_le hq with rfl | hlt
        · exact Bool.eq_false_iff.mpr ha
        · exact h q hlt (by omega)
      · intro h q hq hq'
        exact h q (by omega) (by omega)

theorem findFrom_stable {a1 a2 : Nat → Bool} {c : Nat} :
    ∀ {fuel start : Nat}, findFrom a1 start fuel = some c →
      (∀ q, start ≤ q → q ≤ c → a2 q = a1 q) →
      findFrom a2 start fuel = some c := by
  intro fuel
  induction fuel with
  | zero => intro start h _; exact absurd h (by simp [findFrom])
  | succ n ih =>
    intro start h hagree
    have hb := findFrom_some h
    rw [findFrom] at h ⊢
    by_cases ha : a1 start
    · rw [if_pos ha] at h
      obtain rfl : start = c := Option.some.inj h
      rw [if_pos (by rw [hagree start (Nat.le_refl _) (Nat.le_refl _)]; exact ha)]
    · rw [if_neg ha] at h
      have hsc : start ≤ c := hb.1
      rw [if_neg (by rw [hagree start (Nat.le_refl _) hsc]; exact ha)]
      exact ih h (fun q hq hq' => hagree q (by omega) hq')

/-- C1 counterexample: with every port bindable except 5000 and the
current port 5000 (hence its probe fails), the code's resolver
`find_available_port` returns 5001, whereas the scan the claim
describes (from 1024 to 65535, skipping the rejected current value)
returns 1024. -/
theorem find_available_port_not_claim_scan :
    find_available_port availExcept5000 availExcept5000 5000 "tcp" = some 5001 ∧
    claimScanC1 availExcept5000 5000 = some 1024 ∧
    (5001 : Nat) ≠ 1024 := by
  refine ⟨rfl, rfl, by decide⟩

/-- C1 (amended): for a monitored single-port variable whose current
port is unavailable, `resolve_ports` scans candidate ports upward from
the current value itself over a window of 50 candidates (current ..
current+49, re-probing the rejected value first), assigns the first
candidate bindable for the same protocol, and raises a runtime
port-search error when none of the 50 candidates is bindable — it does
not scan from 1024 to 65535. -/
theorem resolve_single_port_scan (tcpAvail udpAvail : Nat → Bool)
    (env upd : EnvRecord) (key proto v : String) (p : Nat)
    (hproto : proto ≠ "udp-range")
    (hv : lookupEnv env key = some v)
    (hp : parseNat v = some p)
    (hbusy : probePort tcpAvail udpAvail proto p = false) :
    (∀ c, find_available_port tcpAvail udpAvail p proto = some c →
       resolveStep tcpAvail udpAvail (env, upd) (key, proto) =
         Except.ok (setEnv env key (toString c), setEnv upd key (toString c)) ∧
       p ≤ c ∧ c < p + 50 ∧ probePort tcpAvail udpAvail proto c = true ∧
       ∀ q, p ≤ q → q < c → probePort tcpAvail udpAvail proto q = false) ∧
    (find_available_port tcpAvail udpAvail p proto = none ↔
       ∀ q, p ≤ q → q < p + 50 → probePort tcpAvail udpAvail proto q = false) ∧
    (find_available_port tcpAvail udpAvail p proto = none →
       resolveStep tcpAvail udpAvail (env, upd) (key, proto) =
         Except.error ("Unable to find available port near " ++ toString p)) := by
  refine ⟨fun c hc => ?_, ?_, fun hnone => ?_⟩
  · refine ⟨?_, findFrom_some hc⟩
    simp [resolveStep, hv, hproto, hp, hbusy, hc]
  · exact findFrom_none
  · simp [resolveStep, hv, hproto, hp, hbusy, hnone]

/-- Witness for `resolve_single_port_scan` at a concrete input: current
port 5000 busy, scan finds 5001 and rewrites the variable. -/
theorem resolve_single_port_scan_witness :
    resolveStep availExcept5000 availExcept5000
        ([("OME_RTMP_PORT", "5000")], []) ("OME_RTMP_PORT", "tcp") =
      Except.ok ([("OME_RTMP_PORT", "5001")], [("OME_RTMP_PORT", "5001")]) ∧
    (5000 : Nat) ≤ 5001 ∧ (5001 : Nat) < 5000 + 50 ∧
    probePort availExcept5000 availExcept5000 "tcp" 5001 = true ∧
    ∀ q, 5000 ≤ q → q < 5001 → probePort availExcept5000 availExcept5000 "tcp" q = false := by
  have h := (resolve_single_port_scan availExcept5000 availExcept5000
    [("OME_RTMP_PORT", "5000")] [] "OME_RTMP_PORT" "tcp" "5000" 5000
    (by decide) rfl rfl rfl).1 5001 rfl
  exact h

theorem lookupEnv_setEnv_ne (env : EnvRecord) (key w q : String) (h : key ≠ q) :
    lookupEnv (setEnv env key w) q = lookupEnv env q := by
  induction env with
  | nil => simp [setEnv, lookupEnv, h]
  | cons kv rest ih =>
    obtain ⟨k, v⟩ := kv
    by_cases hk : k = key
    · subst hk
      simp [setEnv, lookupEnv, h]
    · simp [setEnv, lookupEnv, hk, ih]

theorem findFrom_self {avail : Nat → Bool} {s : Nat} (h : avail s = true) (fuel : Nat) :
    findFrom avail s (fuel + 1) = some s := by
  rw [findFrom, if_pos h]

/-- C3: for a monitored `udp-range` variable whose current value parses
as `sp-ep`, when the scan (probing upward from `sp`) assigns a new start
`ns ≠ sp`, the loop body of `resolve_ports` rewrites the value to
`ns-(ep + (ns - sp))`, whose width equals the original width exactly;
and the scan's outcome depends only on the probes of the single ports
`sp..ns` — no other port of the shifted range is consulted (the second
oracle pair agrees with the first only on that interval and yields the
same assignment). -/
theorem resolve_range_preserves_width (tcpAvail udpAvail tcp2 udp2 : Nat → Bool)
    (env upd : EnvRecord) (key v : String) (s e : List Char) (sp ep ns : Nat)
    (hv : lookupEnv env key = some v)
    (hsplit : splitCharsOnFirst '-' v.data = some (s, e))
    (hs : parseNat (String.mk s) = some sp)
    (he : parseNat (String.mk e) = some ep)
    (hfind : find_available_port tcpAvail udpAvail sp "udp" = some ns)
    (hne : ns ≠ sp)
    (hagree : ∀ q, sp ≤ q → q ≤ ns → udp2 q = udpAvail q) :
    resolveStep tcpAvail udpAvail (env, upd) (key, "udp-range") =
      Except.ok
        (setEnv env key (toString ns ++ "-" ++ toString (ep + (ns - sp))),
         setEnv upd key (toString ns ++ "-" ++ toString (ep + (ns - sp)))) ∧
    ((ep + (ns - sp) : Nat) : Int) - (ns : Int) = (ep : Int) - (sp : Int) ∧
    find_available_port tcp2 udp2 sp "udp" = some ns := by
  have hsp_le : sp ≤ ns := (findFrom_some hfind).1
  refine ⟨?_, ?_, ?_⟩
  · simp [resolveStep, hv, hsplit, hs, he, hfind, hne]
  · omega
  · refine findFrom_stable hfind (fun q hq hq' => ?_)
    simp only [probePort, if_pos rfl]
    exact hagree q hq hq'

/-- Witness for `resolve_range_preserves_width`: range `10000-10004`
with 10000 busy is shifted to `10001-10005`, width 4 preserved. -/
theorem resolve_range_preserves_width_witness :
    resolveStep availExcept10000 availExcept10000
        ([("OME_WEBRTC_CANDIDATE_PORT_RANGE", "10000-10004")], [])
        ("OME_WEBRTC_CANDIDATE_PORT_RANGE", "udp-range") =
      Except.ok
        ([("OME_WEBRTC_CANDIDATE_PORT_RANGE", "10001-10005")],
         [("OME_WEBRTC_CANDIDATE_PORT_RANGE", "10001-10005")]) ∧
    ((10004 + (10001 - 10000) : Nat) : Int) - (10001 : Int) =
      ((10004 : Nat) : Int) - ((10000 : Nat) : Int) := by
  have h := resolve_range_preserves_width availExcept10000 availExcept10000
    availExcept10000 availExcept10000
    [("OME_WEBRTC_CANDIDATE_PORT_RANGE", "10000-10004")] []
    "OME_WEBRTC_CANDIDATE_PORT_RANGE" "10000-10004"
    "10000".data "10004".data 10000 10004 10001
    rfl rfl rfl rfl rfl (by decide) (fun q _ _ => rfl)
  exact ⟨h.1, h.2.1⟩

theorem resolveStep_noop (tcpAvail udpAvail : Nat → Bool) (env upd : EnvRecord)
    (kv : String × String)
    (h : Option.all (fun v => valueAvailable tcpAvail udpAvail kv.2 v)
           (lookupEnv env kv.1) = true) :
    resolveStep tcpAvail udpAvail (env, upd) kv = Except.ok (env, upd) := by
  rcases hlk : lookupEnv env kv.1 with _ | v
  · simp [resolveStep, hlk]
  · rw [hlk] at h
    simp only [Option.all] at h
    by_cases hproto : kv.2 = "udp-range"
    · rw [valueAvailable, if_pos hproto] at h
      rcases hsplit : splitCharsOnFirst '-' v.data with _ | ⟨s, e⟩
      · simp only [hsplit] at h
        exact Bool.noConfusion h
      · simp only [hsplit] at h
        rcases hps : parseNat (String.mk s) with _ | sp
        · simp only [hps] at h
          exact Bool.noConfusion h
        · rcases hpe : parseNat (String.mk e) with _ | ep
          · simp only [hps, hpe] at h
            exact Bool.noConfusion h
          · simp only [hps, hpe] at h
            have hfind : find_available_port tcpAvail udpAvail sp "udp" = some sp :=
              findFrom_self (by simp [probePort, h]) 49
            simp [resolveStep, hlk, hproto, hsplit, hps, hpe, hfind]
    · rw [valueAvailable, if_neg hproto] at h
      rcases hp : parseNat v with _ | port
      · simp only [hp] at h
        exact Bool.noConfusion h
      · simp only [hp] at h
        simp [resolveStep, hlk, hproto, hp, h]

theorem resolveGo_noop (tcpAvail udpAvail : Nat → Bool) (env : EnvRecord) :
    ∀ (vars : List (String × String)) (upd : EnvRecord),
      (∀ kv ∈ vars, Option.all (fun v => valueAvailable tcpAvail udpAvail kv.2 v)
        (lookupEnv env kv.1) = true) →
      resolveGo tcpAvail udpAvail vars (env, upd) = Except.ok (env, upd) := by
  intro vars
  induction vars with
  | nil => intro upd _; rfl
  | cons kv rest ih =>
    intro upd h
    have hstep := resolveStep_noop tcpAvail udpAvail env upd kv (h kv (List.mem_cons_self _ _))
    simp only [resolveGo, hstep]
    exact ih upd (fun kv' hkv' => h kv' (List.mem_cons_of_mem _ hkv'))

/-- C5: when every monitored port variable that is present in the store
parses and its bind probe succeeds (for a range, the probe of the range
start), `resolve_ports` returns an empty `updated` mapping and the store
is unchanged (so no `save` is triggered); consequently a second
application also yields no changes. -/
theorem resolve_ports_no_conflict_noop (tcpAvail udpAvail : Nat → Bool) (env : EnvRecord)
    (h : ∀ kv ∈ PORT_VARIABLES,
      Option.all (fun v => valueAvailable tcpAvail udpAvail kv.2 v)
        (lookupEnv env kv.1) = true) :
    resolve_ports tcpAvail udpAvail env = Except.ok (env, []) ∧
    ∀ env2 upd2, resolve_ports tcpAvail udpAvail env = Except.ok (env2, upd2) →
      resolve_ports tcpAvail udpAvail env2 = Except.ok (env2, []) := by
  have h1 : resolve_ports tcpAvail udpAvail env = Except.ok (env, []) :=
    resolveGo_noop tcpAvail udpAvail env PORT_VARIABLES [] h
  refine ⟨h1, fun env2 upd2 h2 => ?_⟩
  rw [h1] at h2
  obtain ⟨h3, -⟩ := Prod.mk.injEq .. ▸ Except.ok.inj h2
  exact h3 ▸ h1

/-- Witness for `resolve_ports_no_conflict_noop`: with every port
bindable, a fully populated store is left untouched. -/
theorem resolve_ports_no_conflict_noop_witness :
    resolve_ports availAll availAll envAllPorts = Except.ok (envAllPorts, []) :=
  (resolve_ports_no_conflict_noop availAll availAll envAllPorts (by decide)).1

theorem resolveStep_total (tcpAvail udpAvail : Nat → Bool) (env upd : EnvRecord)
    (kv : String × String)
    (h : Option.all (fun v => valueResolvable tcpAvail udpAvail kv.2 v)
           (lookupEnv env kv.1) = true) :
    resolveStep tcpAvail udpAvail (env, upd) kv = Except.ok (env, upd) ∨
    ∃ w, lookupEnv env kv.1 ≠ none ∧
      resolveStep tcpAvail udpAvail (env, upd) kv =
        Except.ok (setEnv env kv.1 w, setEnv upd kv.1 w) := by
  rcases hlk : lookupEnv env kv.1 with _ | v
  · left; simp [resolveStep, hlk]
  · rw [hlk] at h
    simp only [Option.all] at h
    by_cases hproto : kv.2 = "udp-range"
    · rw [valueResolvable, if_pos hproto] at h
      rcases hsplit : splitCharsOnFirst '-' v.data with _ | ⟨s, e⟩
      · simp only [hsplit] at h
        exact Bool.noConfusion h
      · simp only [hsplit] at h
        rcases hps : parseNat (String.mk s) with _ | sp
        · simp only [hps] at h
          exact Bool.noConfusion h
        · rcases hpe : parseNat (String.mk e) with _ | ep
          · simp only [hps, hpe] at h
            exact Bool.noConfusion h
          · simp only [hps, hpe] at h
            rcases hfind : find_available_port tcpAvail udpAvail sp "udp" with _ | ns
            · simp only [hfind, Option.isSome_none] at h
              exact Bool.noConfusion h
            · by_cases hns : ns = sp
              · left
                simp [resolveStep, hlk, hproto, hsplit, hps, hpe, hfind, hns]
              · right
                refine ⟨toString ns ++ "-" ++ toString (ep + (ns - sp)), by simp [hlk], ?_⟩
                simp [resolveStep, hlk, hproto, hsplit, hps, hpe, hfind, hns]
    · rw [valueResolvable, if_neg hproto] at h
      rcases hp : parseNat v with _ | port
      · simp only [hp] at h
        exact Bool.noConfusion h
      · simp only [hp] at h
        rcases hav : probePort tcpAvail udpAvail kv.2 port with _ | _
        · simp only [hav, Bool.false_or] at h
          rcases hfind : find_available_port tcpAvail udpAvail port kv.2 with _ | c
          · simp only [hfind, Option.isSome_none] at h
            exact Bool.noConfusion h
          · right
            refine ⟨toString c, by simp [hlk], ?_⟩
            simp [resolveStep, hlk, hproto, hp, hav, hfind]
        · left
          simp [resolveStep, hlk, hproto, hp, hav]

theorem resolveGo_total (tcpAvail udpAvail : Nat → Bool) :
    ∀ (vars : List (String × String)) (env upd : EnvRecord),
      (vars.map Prod.fst).Nodup →
      (∀ kv ∈ vars, Option.all (fun v => valueResolvable tcpAvail udpAvail kv.2 v)
        (lookupEnv env kv.1) = true) →
      ∃ env' upd', resolveGo tcpAvail udpAvail vars (env, upd) = Except.ok (env', upd') ∧
        ∀ q, lookupEnv env q = none →
          lookupEnv env' q = none ∧ (lookupEnv upd q = none → lookupEnv upd' q = none) := by
  intro vars
  induction vars with
  | nil =>
    intro env upd _ _
    exact ⟨env, upd, rfl, fun q hq => ⟨hq, fun h => h⟩⟩
  | cons kv rest ih =>
    intro env upd hnodup h
    rw [List.map_cons, List.nodup_cons] at hnodup
    rcases resolveStep_total tcpAvail udpAvail env upd kv (h kv (List.mem_cons_self _ _)) with
      hsame | ⟨w, hlkv, hset⟩
    · obtain ⟨env', upd', hgo, habs⟩ :=
        ih env upd hnodup.2 (fun kv' hkv' => h kv' (List.mem_cons_of_mem _ hkv'))
      exact ⟨env', upd', by simp only [resolveGo, hsame]; exact hgo, habs⟩
    · have hres1 : ∀ kv' ∈ rest,
          Option.all (fun v => valueResolvable tcpAvail udpAvail kv'.2 v)
            (lookupEnv (setEnv env kv.1 w) kv'.1) = true := by
        intro kv' hkv'
        have hne : kv.1 ≠ kv'.1 := by
          intro heq
          exact hnodup.1 (heq ▸ List.mem_map_of_mem Prod.fst hkv')
        rw [lookupEnv_setEnv_ne _ _ _ _ hne]
        exact h kv' (List.mem_cons_of_mem _ hkv')
      obtain ⟨env', upd', hgo, habs1⟩ :=
        ih (setEnv env kv.1 w) (setEnv upd kv.1 w) hnodup.2 hres1
      refine ⟨env', upd', by simp only [resolveGo, hset]; exact hgo, fun q hq => ?_⟩
      have hkq : kv.1 ≠ q := fun heq => hlkv (heq ▸ hq)
      obtain ⟨ha, hb⟩ := habs1 q (by rw [lookupEnv_setEnv_ne _ _ _ _ hkq]; exact hq)
      exact ⟨ha, fun hupd => hb (by rw [lookupEnv_setEnv_ne _ _ _ _ hkq]; exact hupd)⟩

/-- C10: a monitored port variable whose key is absent from the store is
skipped by `resolve_ports`: the absence raises no error, the returned
`updated` mapping has no entry for the key, and the store still has no
entry for it (the hypothesis on the other, present, monitored values
rules out errors coming from those values instead). -/
theorem resolve_ports_skips_absent (tcpAvail udpAvail : Nat → Bool) (env : EnvRecord)
    (key proto : String)
    (_hk : (key, proto) ∈ PORT_VARIABLES)
    (habs : lookupEnv env key = none)
    (hres : ∀ kv ∈ PORT_VARIABLES,
      Option.all (fun v => valueResolvable tcpAvail udpAvail kv.2 v)
        (lookupEnv env kv.1) = true) :
    ∃ env' upd, resolve_ports tcpAvail udpAvail env = Except.ok (env', upd) ∧
      lookupEnv upd key = none ∧ lookupEnv env' key = none := by
  obtain ⟨env', upd', hgo, habs'⟩ :=
    resolveGo_total tcpAvail udpAvail PORT_VARIABLES env [] (by decide) hres
  obtain ⟨h1, h2⟩ := habs' key habs
  exact ⟨env', upd', hgo, h2 rfl, h1⟩

/-- Witness for `resolve_ports_skips_absent`: `GUEST_HTTP_PORT` is
absent from `envNoGuest` and stays absent. -/
theorem resolve_ports_skips_absent_witness :
    ∃ env' upd, resolve_ports availAll availAll envNoGuest = Except.ok (env', upd) ∧
      lookupEnv upd "GUEST_HTTP_PORT" = none ∧
      lookupEnv env' "GUEST_HTTP_PORT" = none :=
  resolve_ports_skips_absent availAll availAll envNoGuest "GUEST_HTTP_PORT" "tcp"
    (by decide) rfl (by decide)

theorem mem_setEnv {env : EnvRecord} {key w : String} {x : String × String} :
    x ∈ setEnv env key w → x ∈ env ∨ x = (key, w) := by
  induction env with
  | nil =>
    intro h
    simp only [setEnv, List.mem_singleton] at h
    exact Or.inr h
  | cons kv rest ih =>
    obtain ⟨k, v⟩ := kv
    intro h
    by_cases hk : k = key
    · subst hk
      simp only [setEnv, if_true, eq_self_iff_true, List.mem_cons] at h
      rcases h with h1 | h1
      · exact Or.inr h1
      · exact Or.inl (List.mem_cons_of_mem _ h1)
    · simp only [setEnv, if_neg hk, List.mem_cons] at h
      rcases h with h1 | h1
      · exact Or.inl (h1 ▸ List.mem_cons_self _ _)
      · rcases ih h1 with h' | h'
        · exact Or.inl (List.mem_cons_of_mem _ h')
        · exact Or.inr h'

theorem mem_addPublisher {ports : EnvRecord} {item : Publisher} {x : String × String}
    (h : x ∈ addPublisher ports item) : x ∈ ports ∨ publisherEntry item x := by
  rcases item with ⟨tgt, pub, proto⟩
  rcases tgt with _ | t
  · exact Or.inl h
  · rcases pub with _ | p
    · exact Or.inl h
    · by_cases hnz : t ≠ 0 ∧ p ≠ 0
      · simp only [addPublisher, if_pos hnz] at h
        rcases mem_setEnv h with h' | h'
        · exact Or.inl h'
        · exact Or.inr ⟨t, p, rfl, rfl, hnz.1, hnz.2, h'⟩
      · simp only [addPublisher, if_neg hnz] at h
        exact Or.inl h

theorem mem_pubFold {pubs : List Publisher} :
    ∀ {acc : EnvRecord} {x : String × String}, x ∈ pubs.foldl addPublisher acc →
      x ∈ acc ∨ ∃ item ∈ pubs, publisherEntry item x := by
  induction pubs with
  | nil => intro acc x h; exact Or.inl h
  | cons p ps ih =>
    intro acc x h
    rw [List.foldl_cons] at h
    rcases ih h with h' | ⟨item, hitem, hshape⟩
    · rcases mem_addPublisher h' with h'' | h''
      · exact Or.inl h''
      · exact Or.inr ⟨p, List.mem_cons_self _ _, h''⟩
    · exact Or.inr ⟨item, List.mem_cons_of_mem _ hitem, hshape⟩

theorem mem_servicesFold {services : List Service} :
    ∀ {acc : EnvRecord} {x : String × String},
      x ∈ services.foldl (fun a s => s.publishers.foldl addPublisher a) acc →
      x ∈ acc ∨ ∃ s ∈ services, ∃ item ∈ s.publishers, publisherEntry item x := by
  induction services with
  | nil => intro acc x h; exact Or.inl h
  | cons s ss ih =>
    intro acc x h
    rw [List.foldl_cons] at h
    rcases ih h with h' | ⟨s', hs', item, hitem, hshape⟩
    · rcases mem_pubFold h' with h'' | ⟨item, hitem, hshape⟩
      · exact Or.inl h''
      · exact Or.inr ⟨s, List.mem_cons_self _ _, item, hitem, hshape⟩
    · exact Or.inr ⟨s', List.mem_cons_of_mem _ hs', item, hitem, hshape⟩

/-- C4: on an absorbed failure (nonzero tool exit, parse failure, or
daemon unreachable) `get_compose_status` returns "not running, zero
containers, empty port map" instead of raising; on a successful parse,
`running` is true iff at least one reported unit is in the running
state, the container count is the total number of reported units, and
every entry of the published-port map is keyed
`"<targetPort>/<protocol>"` with the published port as its value. -/
theorem compose_status_contract :
    (∀ f, get_compose_status (Except.error f) = ⟨false, 0, []⟩) ∧
    ∀ services,
      ((get_compose_status (Except.ok services)).running = true ↔
        ∃ s ∈ services, s.state = some "running") ∧
      (get_compose_status (Except.ok services)).containers = services.length ∧
      ∀ kvp ∈ (get_compose_status (Except.ok services)).published_ports,
        ∃ s ∈ services, ∃ item ∈ s.publishers, ∃ t p,
          item.targetPort = some t ∧ item.publishedPort = some p ∧
          t ≠ 0 ∧ p ≠ 0 ∧
          kvp.1 = toString t ++ "/" ++ item.protocol.getD "tcp" ∧
          kvp.2 = toString p := by
  refine ⟨fun f => rfl, fun services => ⟨?_, rfl, fun kvp hkvp => ?_⟩⟩
  · simp [get_compose_status, List.any_eq_true]
  · rcases mem_servicesFold hkvp with h | ⟨s, hs, item, hitem, t, p, h1, h2, h3, h4, h5⟩
    · exact absurd h (List.not_mem_nil _)
    · exact ⟨s, hs, item, hitem, t, p, h1, h2, h3, h4, congrArg Prod.fst h5,
        congrArg Prod.snd h5⟩

/-- Witness for `compose_status_contract`: a unit list with one running
and one exited unit yields running, two containers, and the sample
published port keyed `8080/tcp`; an error yields the inert status. -/
theorem compose_status_contract_witness :
    (get_compose_status (Except.ok sampleServices)).running = true ∧
    (get_compose_status (Except.ok sampleServices)).containers = 2 ∧
    get_compose_status (Except.error ComposeFailure.daemonUnreachable) = ⟨false, 0, []⟩ := by
  obtain ⟨herr, hok⟩ := compose_status_contract
  obtain ⟨hrun, hcount, -⟩ := hok sampleServices
  refine ⟨hrun.mpr ⟨⟨some "running", [⟨some 8080, some 9000, some "tcp"⟩]⟩, ?_, rfl⟩,
    hcount.trans rfl, herr _⟩
  simp [sampleServices]

/-- C7: the stream-reachability probe's report, for a store holding the
host key: HTTP 404 is reported as waiting for the broadcaster, any
other HTTP error code is reported verbatim in the message, a connection
failure is reported as the endpoint being unreachable, a success
response (urllib only returns responses with status below 400) is
reported as live, and even any other exception is absorbed into a
message — the probe never raises to its caller. -/
theorem stream_probe_report (env : EnvRecord) (hostip : String)
    (hhost : lookupEnv env "OME_HOST_IP" = some hostip)
    (status code : Nat) (hs : status < 400) (hc : code ≠ 404) :
    check_stream_availability env (ProbeOutcome.success status) =
      Except.ok "Live stream detected" ∧
    check_stream_availability env (ProbeOutcome.httpError 404) =
      Except.ok "Waiting for OBS to publish" ∧
    check_stream_availability env (ProbeOutcome.httpError code) =
      Except.ok ("HTTP " ++ toString code ++ " from LL-HLS") ∧
    check_stream_availability env ProbeOutcome.urlError =
      Except.ok "Stream endpoint unreachable" ∧
    check_stream_availability env ProbeOutcome.otherError =
      Except.ok "Stream probe failed" := by
  refine ⟨?_, ?_, ?_, ?_, ?_⟩ <;>
    simp [check_stream_availability, classifyProbe, hhost, hs, hc]

/-- Witness for `stream_probe_report` with host present, a 200 success
and a 503 error code. -/
theorem stream_probe_report_witness :
    check_stream_availability [("OME_HOST_IP", "192.168.0.2")] (ProbeOutcome.success 200) =
      Except.ok "Live stream detected" ∧
    check_stream_availability [("OME_HOST_IP", "192.168.0.2")] (ProbeOutcome.httpError 404) =
      Except.ok "Waiting for OBS to publish" ∧
    check_stream_availability [("OME_HOST_IP", "192.168.0.2")] (ProbeOutcome.httpError 503) =
      Except.ok ("HTTP " ++ toString 503 ++ " from LL-HLS") ∧
    check_stream_availability [("OME_HOST_IP", "192.168.0.2")] ProbeOutcome.urlError =
      Except.ok "Stream endpoint unreachable" ∧
    check_stream_availability [("OME_HOST_IP", "192.168.0.2")] ProbeOutcome.otherError =
      Except.ok "Stream probe failed" :=
  stream_probe_report [("OME_HOST_IP", "192.168.0.2")] "192.168.0.2" rfl
    200 503 (by decide) (by decide)

theorem processRequests_cons (srv : GuestServer) (r : Request) (rs : List Request) :
    processRequests srv (r :: rs) = processRequests (handleGet srv r) rs := rfl

theorem mem_register {srv : GuestServer} {ip : String} {now : Nat} {a : String} :
    a ∈ (register_client srv ip now).unique_clients ↔
      a ∈ srv.unique_clients ∨ a = ip := by
  simp only [register_client]
  by_cases hmem : ip ∈ srv.unique_clients
  · rw [if_pos hmem]
    constructor
    · exact Or.inl
    · rintro (h | rfl)
      · exact h
      · exact hmem
  · rw [if_neg hmem]
    simp [List.mem_append]

theorem nodup_register {srv : GuestServer} {ip : String} {now : Nat}
    (h : srv.unique_clients.Nodup) :
    (register_client srv ip now).unique_clients.Nodup := by
  simp only [register_client]
  by_cases hmem : ip ∈ srv.unique_clients
  · rw [if_pos hmem]; exact h
  · rw [if_neg hmem]
    rw [List.nodup_append]
    exact ⟨h, List.nodup_singleton _,
      fun a ha hb => hmem ((List.mem_singleton.mp hb) ▸ ha)⟩

theorem mem_processRequests {reqs : List Request} :
    ∀ {srv : GuestServer} {a : String},
      (∀ r ∈ reqs, startsWithChars "/api/time".data r.path.data = true) →
      (a ∈ (processRequests srv reqs).unique_clients ↔
        a ∈ srv.unique_clients ∨ a ∈ reqs.map Request.ip) := by
  induction reqs with
  | nil => intro srv a _; simp [processRequests]
  | cons r rs ih =>
    intro srv a hp
    have hr := hp r (List.mem_cons_self _ _)
    have hreg : handleGet srv r = register_client srv r.ip r.now := by
      rw [handleGet, if_pos hr]
    rw [processRequests_cons, hreg,
      ih (fun r' h' => hp r' (List.mem_cons_of_mem _ h')), mem_register,
      List.map_cons, List.mem_cons]
    tauto

theorem nodup_processRequests {reqs : List Request} :
    ∀ {srv : GuestServer}, srv.unique_clients.Nodup →
      (processRequests srv reqs).unique_clients.Nodup := by
  induction reqs with
  | nil => intro srv h; exact h
  | cons r rs ih =>
    intro srv h
    rw [processRequests_cons]
    by_cases hc : startsWithChars "/api/time".data r.path.data = true
    · rw [handleGet, if_pos hc]
      exact ih (nodup_register h)
    · rw [handleGet, if_neg hc]
      exact ih h

/-- C8: the `/api/time` handler records each client address at most
once: after n ≥ 1 repeated pings from the same address the registry
holds that address exactly once, and for any sequence of `/api/time`
requests `client_count` equals the number of distinct client addresses
observed, not the number of requests. -/
theorem guest_registry_distinct (addr : String) (n : Nat) (hn : 1 ≤ n)
    (reqs : List Request)
    (hpaths : ∀ r ∈ reqs, startsWithChars "/api/time".data r.path.data = true) :
    List.count addr
      ((processRequests initGuestServer
        (List.replicate n ⟨"/api/time", addr, 0⟩)).unique_clients) = 1 ∧
    client_count (processRequests initGuestServer reqs) =
      ((reqs.map Request.ip).dedup).length := by
  constructor
  · have hpaths' : ∀ r ∈ List.replicate n (⟨"/api/time", addr, 0⟩ : Request),
        startsWithChars "/api/time".data r.path.data = true := by
      intro r hr
      rw [List.eq_of_mem_replicate hr]
      show startsWithChars "/api/time".data "/api/time".data = true
      decide
    have hnodup := @nodup_processRequests
      (List.replicate n ⟨"/api/time", addr, 0⟩) initGuestServer List.nodup_nil
    have hmem : addr ∈ (processRequests initGuestServer
        (List.replicate n ⟨"/api/time", addr, 0⟩)).unique_clients := by
      rw [mem_processRequests hpaths']
      right
      rw [List.map_replicate]
      exact List.mem_replicate.mpr ⟨by omega, rfl⟩
    exact List.count_eq_one_of_mem hnodup hmem
  · have hnodup := @nodup_processRequests reqs initGuestServer List.nodup_nil
    have hfs : (processRequests initGuestServer reqs).unique_clients.toFinset =
        (reqs.map Request.ip).toFinset := by
      ext a
      simp only [List.mem_toFinset]
      rw [mem_processRequests hpaths]
      simp [initGuestServer]
    calc client_count (processRequests initGuestServer reqs)
        = (processRequests initGuestServer reqs).unique_clients.dedup.length := by
          rw [hnodup.dedup]; rfl
      _ = (processRequests initGuestServer reqs).unique_clients.toFinset.card :=
          (List.card_toFinset _).symm
      _ = (reqs.map Request.ip).toFinset.card := by rw [hfs]
      _ = ((reqs.map Request.ip).dedup).length := List.card_toFinset _

/-- Witness for `guest_registry_distinct`: three pings from one address
register it once; three requests from two distinct addresses count 2. -/
theorem guest_registry_distinct_witness :
    List.count "10.0.0.7"
      ((processRequests initGuestServer
        (List.replicate 3 ⟨"/api/time", "10.0.0.7", 0⟩)).unique_clients) = 1 ∧
    client_count (processRequests initGuestServer
        [⟨"/api/time", "10.0.0.20", 0⟩, ⟨"/api/time", "10.0.0.21", 1⟩,
         ⟨"/api/time", "10.0.0.20", 2⟩]) =
      ((([⟨"/api/time", "10.0.0.20", 0⟩, ⟨"/api/time", "10.0.0.21", 1⟩,
         ⟨"/api/time", "10.0.0.20", 2⟩] : List Request).map Request.ip).dedup).length :=
  guest_registry_distinct "10.0.0.7" 3 (by decide)
    [⟨"/api/time", "10.0.0.20", 0⟩, ⟨"/api/time", "10.0.0.21", 1⟩,
     ⟨"/api/time", "10.0.0.20", 2⟩] (by decide)

theorem splitCharsOnFirst_reconstruct {sep : Char} :
    ∀ {cs l r : List Char}, splitCharsOnFirst sep cs = some (l, r) →
      cs = l ++ sep :: r := by
  intro cs
  induction cs with
  | nil => intro l r h; exact absurd h (by simp [splitCharsOnFirst])
  | cons c rest ih =>
    intro l r h
    rw [splitCharsOnFirst] at h
    by_cases hc : c = sep
    · rw [if_pos hc] at h
      simp only [Option.some.injEq, Prod.mk.injEq] at h
      obtain ⟨rfl, rfl⟩ := h
      rw [hc]
      rfl
    · rw [if_neg hc] at h
      rcases hsp : splitCharsOnFirst sep rest with _ | ⟨l2, r2⟩
      · rw [hsp] at h; exact absurd h (by simp)
      · rw [hsp] at h
        simp only [Option.map_some', Option.some.injEq, Prod.mk.injEq] at h
        obtain ⟨rfl, rfl⟩ := h
        rw [ih hsp]
        rfl

theorem envParseLine_reconstruct {raw k v : String}
    (htrim : trimChars raw.data = raw.data)
    (h : envParseLine raw = some (k, v)) :
    k ++ "=" ++ v = raw := by
  rw [envParseLine, htrim] at h
  rcases hd : raw.data with _ | ⟨c, rest⟩
  · simp only [hd] at h
    exact absurd h (by simp)
  · simp only [hd] at h
    by_cases hc : c = '#'
    · rw [if_pos hc] at h; exact absurd h (by simp)
    · rw [if_neg hc] at h
      rcases hsp : splitCharsOnFirst '=' (c :: rest) with _ | ⟨kd, vd⟩
      · simp only [hsp] at h
        exact absurd h (by simp)
      · simp only [hsp, Option.some.injEq, Prod.mk.injEq] at h
        obtain ⟨rfl, rfl⟩ := h
        have hrec := splitCharsOnFirst_reconstruct hsp
        apply String.ext
        show (String.mk kd ++ "=" ++ String.mk vd).data = raw.data
        rw [String.data_append, String.data_append, hd, hrec]
        show (kd ++ ['=']) ++ vd = kd ++ '=' :: vd
        rw [List.append_assoc]
        rfl

theorem lookupEnv_append_none {acc env2 : EnvRecord} {q : String}
    (h1 : lookupEnv acc q = none) (h2 : lookupEnv env2 q = none) :
    lookupEnv (acc ++ env2) q = none := by
  induction acc with
  | nil => exact h2
  | cons kv rest ih =>
    obtain ⟨a, b⟩ := kv
    rw [lookupEnv] at h1
    by_cases ha : a = q
    · rw [if_pos ha] at h1; exact absurd h1 (by simp)
    · rw [if_neg ha] at h1
      rw [List.cons_append, lookupEnv, if_neg ha]
      exact ih h1

theorem setEnv_fresh_append {env : EnvRecord} {k w : String}
    (h : lookupEnv env k = none) :
    setEnv env k w = env ++ [(k, w)] := by
  induction env with
  | nil => rfl
  | cons kv rest ih =>
    obtain ⟨a, b⟩ := kv
    rw [lookupEnv] at h
    by_cases ha : a = k
    · rw [if_pos ha] at h; exact absurd h (by simp)
    · rw [if_neg ha] at h
      rw [setEnv, if_neg ha, ih h]
      rfl

theorem envLoadInto_append :
    ∀ (file : List String) (acc : EnvRecord),
      (∀ l ∈ file, (envParseLine l).isSome = true) →
      (file.filterMap entryKey).Nodup →
      (∀ kstr ∈ file.filterMap entryKey, lookupEnv acc kstr = none) →
      envLoadInto acc file = acc ++ file.filterMap envParseLine := by
  intro file
  induction file with
  | nil => intro acc _ _ _; simp [envLoadInto]
  | cons l rest ih =>
    intro acc hsome hnodup hfresh
    rcases hp : envParseLine l with _ | ⟨k, v⟩
    · have := hsome l (List.mem_cons_self _ _)
      rw [hp] at this
      exact absurd this (by simp)
    · have hkey : entryKey l = some k := by rw [entryKey, hp]; rfl
      have hkeys_cons : (l :: rest).filterMap entryKey =
          k :: rest.filterMap entryKey := by
        rw [List.filterMap_cons, hkey]
      rw [hkeys_cons, List.nodup_cons] at hnodup
      have hfreshk : lookupEnv acc k = none := by
        apply hfresh
        rw [hkeys_cons]
        exact List.mem_cons_self _ _
      have hfresh2 : ∀ kstr ∈ rest.filterMap entryKey,
          lookupEnv (acc ++ [(k, v)]) kstr = none := by
        intro kstr hks
        have hne : k ≠ kstr := fun heq => hnodup.1 (heq ▸ hks)
        refine lookupEnv_append_none ?_ ?_
        · apply hfresh
          rw [hkeys_cons]
          exact List.mem_cons_of_mem _ hks
        · rw [lookupEnv, if_neg hne]
          rfl
      simp only [envLoadInto, hp]
      rw [setEnv_fresh_append hfreshk,
        ih (acc ++ [(k, v)])
          (fun l2 h2 => hsome l2 (List.mem_cons_of_mem _ h2))
          hnodup.2 hfresh2,
        List.filterMap_cons, hp, List.append_assoc]
      rfl

theorem envSave_parsedEntries :
    ∀ (file : List String),
      (∀ l ∈ file, trimChars l.data = l.data) →
      (∀ l ∈ file, (envParseLine l).isSome = true) →
      envSave (file.filterMap envParseLine) = file := by
  intro file
  induction file with
  | nil => intro _ _; rfl
  | cons l rest ih =>
    intro htrim hsome
    rcases hp : envParseLine l with _ | ⟨k, v⟩
    · have := hsome l (List.mem_cons_self _ _)
      rw [hp] at this
      exact absurd this (by simp)
    · rw [List.filterMap_cons, hp]
      show (k ++ "=" ++ v) :: envSave (rest.filterMap envParseLine) = l :: rest
      rw [envParseLine_reconstruct (htrim l (List.mem_cons_self _ _)) hp,
        ih (fun l2 h2 => htrim l2 (List.mem_cons_of_mem _ h2))
           (fun l2 h2 => hsome l2 (List.mem_cons_of_mem _ h2))]

/-- C9 counterexample: a file whose lines are all `KEY=VALUE` but with a
duplicated key does not round-trip through load then save: the later
value wins and a single line is written back. -/
theorem env_roundtrip_duplicate_keys_cex :
    envSave (envLoadLines ["A=1", "A=2"]) = ["A=2"] ∧
    (["A=2"] : List String) ≠ ["A=1", "A=2"] := by
  exact ⟨by decide, by decide⟩

/-- C9 (amended): a file of `KEY=VALUE` lines carrying no surrounding
whitespace and with pairwise-distinct keys round-trips through load then
save unchanged (every entry preserved in insertion order, keys unique),
and comment and blank lines are ignored on read — since the written file
equals the entry-only original, they are not reproduced on write. -/
theorem env_load_save_roundtrip (file : List String)
    (htrim : ∀ l ∈ file, trimChars l.data = l.data)
    (hsome : ∀ l ∈ file, (envParseLine l).isSome = true)
    (hkeys : (file.filterMap entryKey).Nodup) :
    envSave (envLoadLines file) = file ∧
    ∀ junk acc rest,
      (trimChars junk.data = [] ∨ ∃ cs, trimChars junk.data = '#' :: cs) →
      envLoadInto acc (junk :: rest) = envLoadInto acc rest := by
  constructor
  · rw [envLoadLines,
      envLoadInto_append file [] hsome hkeys (fun kstr _ => rfl),
      List.nil_append]
    exact envSave_parsedEntries file htrim hsome
  · intro junk acc rest hjunk
    have hnone : envParseLine junk = none := by
      rcases hjunk with hj | ⟨cs, hj⟩
      · simp [envParseLine, hj]
      · simp [envParseLine, hj]
    simp only [envLoadInto, hnone]

/-- Witness for `env_load_save_roundtrip`: a two-entry file round-trips
unchanged and a comment line is skipped. -/
theorem env_load_save_roundtrip_witness :
    envSave (envLoadLines ["OME_RTMP_PORT=1935", "GUEST_HTTP_PORT=8088"]) =
      ["OME_RTMP_PORT=1935", "GUEST_HTTP_PORT=8088"] ∧
    envLoadInto [] ["# comment", "A=1"] = envLoadInto [] ["A=1"] := by
  have h := env_load_save_roundtrip ["OME_RTMP_PORT=1935", "GUEST_HTTP_PORT=8088"]
    (by decide) (by decide) (by decide)
  exact ⟨h.1, h.2 "# comment" [] ["A=1"] (Or.inr ⟨" comment".data, by decide⟩)⟩

end StartServer

namespace Manage

theorem scanFrom_some {avail : Nat → Bool} {excl : List Nat} {c : Nat} :
    ∀ {fuel start : Nat}, scanFrom avail excl start fuel = some c →
      avail c = true ∧ c ∉ excl := by
  intro fuel
  induction fuel with
  | zero => intro start h; exact absurd h (by simp [scanFrom])
  | succ n ih =>
    intro start h
    rw [scanFrom] at h
    by_cases hex : start ∈ excl
    · rw [if_pos hex] at h; exact ih h
    · rw [if_neg hex] at h
      by_cases hav : avail start = true
      · rw [if_pos hav] at h
        obtain rfl := Option.some.inj h
        exact ⟨hav, hex⟩
      · rw [if_neg hav] at h; exact ih h

/-- C6: for an already-bound preferred port (its TCP bind probe fails),
`manage.py`'s `find_available_port` returns a different, currently
bindable port that is never a member of the caller-supplied exclusion
set (the probe protocol is TCP throughout this module, so the returned
port is bindable for the same protocol as the preferred one). -/
theorem find_port_respects_exclusions (avail : Nat → Bool) (preferred : Nat)
    (exclude : List Nat) (c : Nat)
    (hbusy : avail preferred = false)
    (hok : find_available_port avail preferred exclude = Except.ok c) :
    avail c = true ∧ c ≠ preferred ∧ c ∉ exclude := by
  simp only [find_available_port] at hok
  rw [if_neg (by simp [hbusy])] at hok
  rcases hscan : scanFrom avail (preferred :: exclude) 1024 (65535 - 1024) with _ | c2
  · rw [hscan] at hok; exact absurd hok (by simp)
  · rw [hscan] at hok
    obtain rfl : c2 = c := Except.ok.inj hok
    obtain ⟨hav, hmem⟩ := scanFrom_some hscan
    refine ⟨hav, ?_, ?_⟩
    · exact fun heq => hmem (heq ▸ List.mem_cons_self _ _)
    · exact fun hm => hmem (List.mem_cons_of_mem _ hm)

/-- Witness for `find_port_respects_exclusions`: preferred port 80 is
busy, 1024 and 1025 are excluded, the scan returns 1026. -/
theorem find_port_respects_exclusions_witness :
    availFrom1024 1026 = true ∧ (1026 : Nat) ≠ 80 ∧
      (1026 : Nat) ∉ ([1024, 1025] : List Nat) :=
  find_port_respects_exclusions availFrom1024 80 [1024, 1025] 1026 rfl rfl

end Manage

end SilentDisco
